import Mathlib

/-!
Verification of the geometric core of the `einstein` STL generator.

The program turns a fixed 2D kite footprint plus transform parameters
(inset/deflate, scale, rotation, translation, mirror) into an extruded
solid made of 12 oriented triangular facets, and emits eight tile
placements (each in a base and an inset "groove" variant) as STL text.

The Go code computes with `float64`; the embedding below uses `ℝ`.  The
one place where IEEE semantics is observable is the orientation check of
`NewBox`: a degenerate quad yields a normal whose components are `0/0`,
i.e. NaN, and a NaN compares false against `0` in both directions.  In
this embedding the computed normal `z` is NaN exactly when the facet's
cross product is the zero vector, so the float comparison
`Normal().z >= 0` is embedded as `crossSq ≠ 0 ∧ 0 ≤ Normal.z` (and
`<= 0` likewise); see `NewBox` below.
-/

namespace Einstein

noncomputable section

open Real

open scoped Classical

/-- Planar coordinate pair, used for the 2D transform pipeline. -/
abbrev V2 : Type := ℝ × ℝ

/-- The four footprint vertices, in order, as planar pairs. -/
abbrev V4 : Type := V2 × V2 × V2 × V2

/-- Global constant `rad = 180 / math.Pi` from the source. -/
def rad : ℝ := 180 / Real.pi

/-- Global constant `sqrt3 = math.Sqrt(3)` from the source. -/
def sqrt3 : ℝ := Real.sqrt 3

/-- Global constant `cos30 = math.Cos(30 / rad)` from the source. -/
def cos30 : ℝ := Real.cos (30 / rad)

/-- Global constant `sin30 = math.Sin(30 / rad)` from the source. -/
def sin30 : ℝ := Real.sin (30 / rad)

/-- Constant `unit = 12` (millimetres) from the source. -/
def unit : ℝ := 12

/-- Constant `inset = 0.03` (fraction of a unit) from the source. -/
def inset : ℝ := 0.03

/-- The `kite` record of the source: a 2D position and a rotation in
degrees. -/
structure kite where
  pos : V2
  rot : ℤ

instance : Inhabited kite := ⟨⟨(0, 0), 0⟩⟩

/-- The fixed table `kites` of eight tile placements from the source. -/
def kites : List kite :=
  [⟨(0, 0), -60⟩,
   ⟨(0, 0), -120⟩,
   ⟨(0, 0), -180⟩,
   ⟨(0, 0), -240⟩,
   ⟨(0, -2 * sqrt3), 60⟩,
   ⟨(0, -2 * sqrt3), 120⟩,
   ⟨(-3, -sqrt3), -60⟩,
   ⟨(-3, -sqrt3), 0⟩]

/-- The `Point` struct: an (x, y, z) coordinate triple. -/
@[ext]
structure Point where
  x : ℝ
  y : ℝ
  z : ℝ

/-- `Point.sub` from the source: componentwise subtraction. -/
def Point.sub (p q : Point) : Point :=
  ⟨p.x - q.x, p.y - q.y, p.z - q.z⟩

/-- The `Facet` type: an oriented triangle `[3]Point`, with `p0, p1, p2`
standing for `f[0], f[1], f[2]`. -/
@[ext]
structure Facet where
  p0 : Point
  p1 : Point
  p2 : Point

/-- `Facet.Normal` from the source: the cross product of the two edge
vectors out of `f[0]`, divided by its Euclidean norm. -/
def Facet.Normal (f : Facet) : Point :=
  let u := f.p1.sub f.p0
  let v := f.p2.sub f.p0
  let nx := u.y * v.z - u.z * v.y
  let ny := u.z * v.x - u.x * v.z
  let nz := u.x * v.y - u.y * v.x
  let norm := Real.sqrt (nx * nx + ny * ny + nz * nz)
  ⟨nx / norm, ny / norm, nz / norm⟩

/-- The unnormalized cross product computed inside `Facet.Normal`
(the values `nx, ny, nz` of the source). -/
def Facet.cross (f : Facet) : Point :=
  let u := f.p1.sub f.p0
  let v := f.p2.sub f.p0
  ⟨u.y * v.z - u.z * v.y, u.z * v.x - u.x * v.z, u.x * v.y - u.y * v.x⟩

/-- The squared length of the cross product of `Facet.Normal` (the value
`norm * norm` of the source, before the square root). -/
def Facet.crossSq (f : Facet) : ℝ :=
  f.cross.x * f.cross.x + f.cross.y * f.cross.y + f.cross.z * f.cross.z

/-- Euclidean magnitude of a point viewed as a vector (used to state the
unit-normal properties). -/
def Point.mag (p : Point) : ℝ :=
  Real.sqrt (p.x * p.x + p.y * p.y + p.z * p.z)

/-- The `Quad` type: `[4]Point`, with `p0 … p3` standing for
`q[0] … q[3]`. -/
@[ext]
structure Quad where
  p0 : Point
  p1 : Point
  p2 : Point
  p3 : Point

/-- Vertex of a quad by index, `q.get i = q[i]`. -/
def Quad.get (q : Quad) : Fin 4 → Point
  | ⟨0, _⟩ => q.p0
  | ⟨1, _⟩ => q.p1
  | ⟨2, _⟩ => q.p2
  | ⟨3, _⟩ => q.p3

/-- `Quad.Facets` from the source: split along the diagonal from vertex 2
to vertex 0 into triangles `(q[0], q[1], q[2])` and `(q[2], q[3], q[0])`. -/
def Quad.Facets (q : Quad) : Facet × Facet :=
  (⟨q.p0, q.p1, q.p2⟩, ⟨q.p2, q.p3, q.p0⟩)

/-- `NewQuad` from the source: build a quad from twelve coordinates. -/
def NewQuad (c0 c1 c2 c3 c4 c5 c6 c7 c8 c9 c10 c11 : ℝ) : Quad :=
  ⟨⟨c0, c1, c2⟩, ⟨c3, c4, c5⟩, ⟨c6, c7, c8⟩, ⟨c9, c10, c11⟩⟩

/-- The `Box` type: `[2]Quad`.  `NewBox` stores the bottom quad first
(`q0`) and the top quad second (`q1`). -/
@[ext]
structure Box where
  q0 : Quad
  q1 : Quad

/-- `NewBox` from the source.  Go checks `q0.Facets()[0].Normal().z >= 0`
and `q1.Facets()[0].Normal().z <= 0` on `float64`s and calls `log.Fatal`
when either holds; fatal termination is modelled as returning an error.
When a first facet is degenerate its computed normal components are NaN
(`0/0`), and an IEEE comparison with NaN is false; the normal's z is NaN
exactly when the facet's cross product is the zero vector, so each float
comparison is embedded with the extra conjunct `crossSq ≠ 0`. -/
def NewBox (q0 q1 : Quad) : Except String Box :=
  if (q0.Facets).1.crossSq ≠ 0 ∧ 0 ≤ (q0.Facets).1.Normal.z then
    Except.error "bad bottom normal"
  else if (q1.Facets).1.crossSq ≠ 0 ∧ (q1.Facets).1.Normal.z ≤ 0 then
    Except.error "bad top normal"
  else
    Except.ok ⟨q0, q1⟩

/-- `Box.Facets` from the source, as the list `f[0] … f[11]`.  Note that
the source's local variable `top` is `b[0]` — the quad `NewBox` validated
as the *bottom* — and `bot` is `b[1]`, the top; the names below mirror the
source text. -/
def Box.Facets (b : Box) : List Facet :=
  let top := b.q0
  let bot := b.q1
  let tmp0 := top.Facets
  let tmp1 := bot.Facets
  let tmp2 := (Quad.mk bot.p0 bot.p3 top.p1 top.p0).Facets
  let tmp3 := (Quad.mk bot.p3 bot.p2 top.p2 top.p1).Facets
  let tmp4 := (Quad.mk bot.p2 bot.p1 top.p3 top.p2).Facets
  let tmp5 := (Quad.mk bot.p1 bot.p0 top.p0 top.p3).Facets
  [tmp0.1, tmp0.2, tmp1.1, tmp1.2,
   tmp2.1, tmp2.2, tmp3.1, tmp3.2,
   tmp4.1, tmp4.2, tmp5.1, tmp5.2]

/-- Map a planar function over the four footprint vertices (the source
applies the same formula to `(x0,y0) … (x3,y3)` in four assignments). -/
def map4 (f : V2 → V2) (v : V4) : V4 :=
  (f v.1, f v.2.1, f v.2.2.1, f v.2.2.2)

/-- Translation stage: `x, y = x+dx, y+dy`. -/
def translateBy (t : V2) (p : V2) : V2 :=
  (p.1 + t.1, p.2 + t.2)

/-- Scaling stage: `x, y = x*k, y*k` (used for the deflate factor and for
the unit size). -/
def scaleBy (k : ℝ) (p : V2) : V2 :=
  (p.1 * k, p.2 * k)

/-- Rotation stage from the source: `x' = x cos θ − y sin θ`,
`y' = x sin θ + y cos θ`. -/
def rotateBy (θ : ℝ) (p : V2) : V2 :=
  (p.1 * Real.cos θ - p.2 * Real.sin θ, p.1 * Real.sin θ + p.2 * Real.cos θ)

/-- X-mirror of one vertex, from the reflect stage: `(x, y) ↦ (−x, y)`. -/
def negx (p : V2) : V2 :=
  (-p.1, p.2)

/-- The reflect stage of the source, line
`x0, y0, …, x3, y3 = -x3, y3, -x2, y2, -x1, y1, -x0, y0`:
negate every X and reverse the vertex order (v0↔v3, v1↔v2). -/
def reflectKite (v : V4) : V4 :=
  (negx v.2.2.2, negx v.2.2.1, negx v.2.1, negx v.1)

/-- The canonical kite footprint `(x0,y0) … (x3,y3)` from the source. -/
def footprint : V4 :=
  ((0, 0), (0, sqrt3), (1, sqrt3), (sqrt3 * cos30, sqrt3 * sin30))

/-- The transform pipeline of `Kite` before the reflect stage:
deflate-and-translate (only when `inset > 0`), scale to unit size, rotate
by the angle in degrees, translate to the destination.  The source
performs each stage as four parallel assignments; here each stage is the
same per-vertex map applied by `map4`. -/
def kiteCore (loc : V2) (rotationDegrees : ℤ) (inset : ℝ) : V4 :=
  let v := footprint
  let v := if inset > 0 then
      map4 (fun p => translateBy (inset * sin30, inset * cos30) (scaleBy (1 - inset) p)) v
    else v
  let v := map4 (scaleBy unit) v
  let θ := (rotationDegrees : ℝ) / rad
  let v := map4 (rotateBy θ) v
  map4 (translateBy (loc.1 * unit, loc.2 * unit)) v

/-- The four transformed footprint vertices of `Kite`: the core pipeline
followed by the optional reflect stage. -/
def kiteVerts (loc : V2) (rotationDegrees : ℤ) (inset : ℝ) (reflect : Bool) : V4 :=
  if reflect then reflectKite (kiteCore loc rotationDegrees inset)
  else kiteCore loc rotationDegrees inset

/-- The bottom quad built by `Kite`: the transformed vertices in forward
order, each at `z = 0`. -/
def kiteBot (w : V4) : Quad :=
  NewQuad
    w.1.1 w.1.2 0
    w.2.1.1 w.2.1.2 0
    w.2.2.1.1 w.2.2.1.2 0
    w.2.2.2.1 w.2.2.2.2 0

/-- The top quad built by `Kite`: vertex 0 first and then the remaining
transformed vertices in reverse order (`x0, x3, x2, x1`), each at the
given height. -/
def kiteTop (w : V4) (height : ℝ) : Quad :=
  NewQuad
    w.1.1 w.1.2 height
    w.2.2.2.1 w.2.2.2.2 height
    w.2.2.1.1 w.2.2.1.2 height
    w.2.1.1 w.2.1.2 height

/-- `Kite` from the source: run the transform pipeline, build the bottom
quad at `z = 0` and the top quad at height `(0.2 + inset) * unit`, and
construct the box. -/
def Kite (loc : V2) (rotationDegrees : ℤ) (inset : ℝ) (reflect : Bool) :
    Except String Box :=
  let w := kiteVerts loc rotationDegrees inset reflect
  NewBox (kiteBot w) (kiteTop w ((0.2 + inset) * unit))

/-- One STL coordinate triple line body, `"%.6e %.6e %.6e"`.  The decimal
conversion `%.6e` itself is performed by Go's `fmt` package, outside this
repository; it is abstracted as the formatter argument `fmt6e`. -/
def Point.fmtS (fmt6e : ℝ → String) (p : Point) : String :=
  fmt6e p.x ++ " " ++ fmt6e p.y ++ " " ++ fmt6e p.z

/-- `Facet.String` from the source: one facet record of the STL output. -/
def Facet.fmtS (fmt6e : ℝ → String) (f : Facet) : String :=
  "facet normal " ++ f.Normal.fmtS fmt6e ++ "\n" ++
  "  outer loop\n" ++
  "    vertex " ++ f.p0.fmtS fmt6e ++ "\n" ++
  "    vertex " ++ f.p1.fmtS fmt6e ++ "\n" ++
  "    vertex " ++ f.p2.fmtS fmt6e ++ "\n" ++
  "  endloop\n" ++
  "endfacet\n"

/-- The text of one solid block: the header naming the solid, a blank
line, then every facet record of the box (each `Fprintln` adds the
trailing newline). -/
def solidStr (fmt6e : ℝ → String) (name : String) (b : Box) : String :=
  "solid " ++ name ++ "\n\n" ++
  String.join (b.Facets.map fun f => f.fmtS fmt6e ++ "\n")

/-- `render` from the source: build the kite's box and print it as one
named solid block; the fatal path of `NewBox` propagates as an error. -/
def render (fmt6e : ℝ → String) (name : String) (k : kite) (inset : ℝ)
    (reflect : Bool) : Except String String :=
  (Kite k.pos k.rot inset reflect).map fun stl => solidStr fmt6e name stl

/-- The sequence of solid blocks emitted by `main`: for each tile
placement in table order, the base solid (`inset 0`) and then the
inset-groove solid (`inset 0.03`). -/
def mainOutput (fmt6e : ℝ → String) (reflectFlag : Bool) :
    List (Except String String) :=
  (List.range kites.length).flatMap fun i =>
    [render fmt6e ("kite" ++ toString i) (kites.getD i default) 0 reflectFlag,
     render fmt6e ("kite-inset" ++ toString i) (kites.getD i default) inset reflectFlag]

/-- The box a successful `Kite` call returns (bottom quad at `z = 0`,
top quad at height `(0.2 + inset) * unit`). -/
def kiteBox (k : kite) (ins : ℝ) (reflect : Bool) : Box :=
  ⟨kiteBot (kiteVerts k.pos k.rot ins reflect),
   kiteTop (kiteVerts k.pos k.rot ins reflect) ((0.2 + ins) * unit)⟩

/-- Planar difference of two vertices. -/
def sub2 (p q : V2) : V2 :=
  (p.1 - q.1, p.2 - q.2)

/-- The z component of the 2D cross product. -/
def cross2D (a b : V2) : ℝ :=
  a.1 * b.2 - a.2 * b.1

/-- Twice the signed area of the planar triangle `(a, b, c)`: the z
component of the cross product computed by `Facet.Normal` for a facet
whose three vertices share one z coordinate. -/
def crossZ (a b c : V2) : ℝ :=
  cross2D (sub2 b a) (sub2 c a)

/-- Squared planar length. -/
def normSq2 (a : V2) : ℝ :=
  a.1 * a.1 + a.2 * a.2

/-- Squared length of the planar edge from `a` to `b`. -/
def edgeSq (a b : V2) : ℝ :=
  normSq2 (sub2 b a)

/-- The affine map a non-reflected pipeline run applies to every
footprint vertex: scale by `s`, rotate by `θ`, translate by `T`. -/
def affineF (s θ : ℝ) (T : V2) (p : V2) : V2 :=
  translateBy T (rotateBy θ (scaleBy s p))

/-- The combined linear scale factor of the pipeline: the deflate factor
(when `inset > 0`) times the unit size. -/
def insetScale (inset : ℝ) : ℝ :=
  if inset > 0 then unit * (1 - inset) else unit

/-- 3D cross product of two vectors (the `nx, ny, nz` formula of
`Facet.Normal` applied to arbitrary vectors). -/
def vcross (u v : Point) : Point :=
  ⟨u.y * v.z - u.z * v.y, u.z * v.x - u.x * v.z, u.x * v.y - u.y * v.x⟩

/-- Scalar multiple of a point viewed as a vector. -/
def smulP (k : ℝ) (p : Point) : Point :=
  ⟨k * p.x, k * p.y, k * p.z⟩

/-- Vertex of the transformed footprint by index. -/
def vert (v : V4) : Fin 4 → V2
  | ⟨0, _⟩ => v.1
  | ⟨1, _⟩ => v.2.1
  | ⟨2, _⟩ => v.2.2.1
  | ⟨3, _⟩ => v.2.2.2
  | ⟨n + 4, h⟩ => absurd h (by omega)

/-- The side quad the code actually builds for index `i` (writing `q0`
for the stored bottom quad and `q1` for the stored top quad):
`(top[(4−i) mod 4], top[(3−i) mod 4], bottom[(i+1) mod 4], bottom[i])`. -/
def sideQuadFix (b : Box) (i : Fin 4) : Quad :=
  ⟨b.q1.get (-i), b.q1.get (-i - 1), b.q0.get (i + 1), b.q0.get i⟩

/-- The side quad described by the claim:
`(bottom[i], bottom[i+1 mod 4], top[i+1 mod 4], top[i mod 4])`, with
`bottom` the quad `NewBox` validated as bottom (`q0`) and `top` the one
validated as top (`q1`). -/
def specSideQuad (b : Box) (i : Fin 4) : Quad :=
  ⟨b.q0.get i, b.q0.get (i + 1), b.q1.get (i + 1), b.q1.get i⟩

/-- The facet list described by the claim: two facets from the top quad
and two from the bottom quad in their natural winding, plus the two
facets of `specSideQuad` for each `i` in `0..3`. -/
def specC2Facets (b : Box) : List Facet :=
  [b.q1.Facets.1, b.q1.Facets.2, b.q0.Facets.1, b.q0.Facets.2,
   (specSideQuad b 0).Facets.1, (specSideQuad b 0).Facets.2,
   (specSideQuad b 1).Facets.1, (specSideQuad b 1).Facets.2,
   (specSideQuad b 2).Facets.1, (specSideQuad b 2).Facets.2,
   (specSideQuad b 3).Facets.1, (specSideQuad b 3).Facets.2]

/-- The top quad described by the claim: "the same transformed vertices
in reverse order" — the reversed vertex list `(v3, v2, v1, v0)` — at the
given height. -/
def specTopQuad (w : V4) (height : ℝ) : Quad :=
  NewQuad
    w.2.2.2.1 w.2.2.2.2 height
    w.2.2.1.1 w.2.2.1.2 height
    w.2.1.1 w.2.1.2 height
    w.1.1 w.1.2 height

/-- A concrete bottom quad: the unit square at `z = 0` wound clockwise
when seen from above, so its first facet normal points down. -/
def exBot : Quad :=
  NewQuad 0 0 0 0 1 0 1 1 0 1 0 0

/-- A concrete top quad: the unit square at `z = 1` wound
counter-clockwise when seen from above, so its first facet normal points
up. -/
def exTop : Quad :=
  NewQuad 0 0 1 1 0 1 1 1 1 0 1 1

/-- A degenerate quad: all four vertices coincide, so every derived facet
has a zero cross product and a NaN normal. -/
def degenQ : Quad :=
  NewQuad 0 0 0 0 0 0 0 0 0 0 0 0

/-! ### Evaluation of the global constants -/

lemma thirty_div_rad : (30 : ℝ) / rad = Real.pi / 6 := by
  rw [rad, div_div_eq_mul_div]
  ring

lemma cos30_eq : cos30 = sqrt3 / 2 := by
  rw [cos30, thirty_div_rad, Real.cos_pi_div_six, sqrt3]

lemma sin30_eq : sin30 = 1 / 2 := by
  rw [sin30, thirty_div_rad, Real.sin_pi_div_six]

lemma sqrt3_sq : sqrt3 * sqrt3 = 3 := by
  rw [sqrt3]
  exact Real.mul_self_sqrt (by norm_num)

lemma sqrt3_pos : 0 < sqrt3 :=
  Real.sqrt_pos.2 (by norm_num)

lemma footprint_eq :
    footprint = ((0, 0), (0, sqrt3), (1, sqrt3), (3 / 2, sqrt3 / 2)) := by
  have h1 : sqrt3 * cos30 = 3 / 2 := by
    rw [cos30_eq]; linear_combination (1 / 2) * sqrt3_sq
  have h2 : sqrt3 * sin30 = sqrt3 / 2 := by
    rw [sin30_eq]; ring
  rw [footprint, h1, h2]

/-! ### How the pipeline stages act on signed areas and edge lengths -/

lemma crossZ_affine (s θ : ℝ) (T : V2) (a b c : V2) :
    crossZ (affineF s θ T a) (affineF s θ T b) (affineF s θ T c) =
      s ^ 2 * crossZ a b c := by
  simp only [crossZ, cross2D, sub2, affineF, translateBy, rotateBy, scaleBy]
  linear_combination
    (s ^ 2 * ((b.1 - a.1) * (c.2 - a.2) - (b.2 - a.2) * (c.1 - a.1))) *
      Real.sin_sq_add_cos_sq θ

lemma edgeSq_affine (s θ : ℝ) (T : V2) (a b : V2) :
    edgeSq (affineF s θ T a) (affineF s θ T b) = s ^ 2 * edgeSq a b := by
  simp only [edgeSq, normSq2, sub2, affineF, translateBy, rotateBy, scaleBy]
  linear_combination
    (s ^ 2 * ((b.1 - a.1) * (b.1 - a.1) + (b.2 - a.2) * (b.2 - a.2))) *
      Real.sin_sq_add_cos_sq θ

lemma crossZ_negx (a b c : V2) :
    crossZ (negx a) (negx b) (negx c) = -crossZ a b c := by
  simp only [crossZ, cross2D, sub2, negx]
  ring

/-! ### Signed areas and edge lengths of the canonical footprint -/

lemma crossZ_f0 : crossZ (0, 0) (0, sqrt3) (1, sqrt3) = -sqrt3 := by
  simp only [crossZ, cross2D, sub2]
  ring

lemma crossZ_f1 : crossZ (1, sqrt3) (3 / 2, sqrt3 / 2) (0, 0) = -sqrt3 := by
  simp only [crossZ, cross2D, sub2]
  ring

lemma crossZ_f2 : crossZ (0, 0) (3 / 2, sqrt3 / 2) (1, sqrt3) = sqrt3 := by
  simp only [crossZ, cross2D, sub2]
  ring

lemma crossZ_f3 : crossZ (1, sqrt3) (0, sqrt3) (0, 0) = sqrt3 := by
  simp only [crossZ, cross2D, sub2]
  ring

lemma crossZ_r0 : crossZ (3 / 2, sqrt3 / 2) (1, sqrt3) (0, sqrt3) = sqrt3 / 2 := by
  simp only [crossZ, cross2D, sub2]
  ring

lemma crossZ_r2 : crossZ (3 / 2, sqrt3 / 2) (0, 0) (0, sqrt3) = -(3 * sqrt3) / 2 := by
  simp only [crossZ, cross2D, sub2]
  ring

lemma edgeSq01 : edgeSq (0, 0) (0, sqrt3) = 3 := by
  simp only [edgeSq, normSq2, sub2]
  linear_combination sqrt3_sq

lemma edgeSq12 : edgeSq (0, sqrt3) (1, sqrt3) = 1 := by
  simp only [edgeSq, normSq2, sub2]
  ring

lemma edgeSq23 : edgeSq (1, sqrt3) (3 / 2, sqrt3 / 2) = 1 := by
  simp only [edgeSq, normSq2, sub2]
  linear_combination (1 / 4) * sqrt3_sq

lemma edgeSq30 : edgeSq (3 / 2, sqrt3 / 2) (0, 0) = 3 := by
  simp only [edgeSq, normSq2, sub2]
  linear_combination (1 / 4) * sqrt3_sq

/-! ### Facet normals: components, signs, magnitude -/

lemma crossSq_nonneg (f : Facet) : 0 ≤ f.crossSq := by
  unfold Facet.crossSq
  nlinarith [mul_self_nonneg f.cross.x, mul_self_nonneg f.cross.y,
    mul_self_nonneg f.cross.z]

lemma Normal_z_neg (f : Facet) (h : f.cross.z < 0) : f.Normal.z < 0 := by
  have hq : 0 < f.crossSq := by
    unfold Facet.crossSq
    nlinarith [mul_self_nonneg f.cross.x, mul_self_nonneg f.cross.y,
      mul_pos_of_neg_of_neg h h]
  have hs : 0 < Real.sqrt f.crossSq := Real.sqrt_pos.2 hq
  show f.cross.z / Real.sqrt f.crossSq < 0
  exact div_neg_of_neg_of_pos h hs

lemma Normal_z_pos (f : Facet) (h : 0 < f.cross.z) : 0 < f.Normal.z := by
  have hq : 0 < f.crossSq := by
    unfold Facet.crossSq
    nlinarith [mul_self_nonneg f.cross.x, mul_self_nonneg f.cross.y, mul_pos h h]
  have hs : 0 < Real.sqrt f.crossSq := Real.sqrt_pos.2 hq
  show 0 < f.cross.z / Real.sqrt f.crossSq
  exact div_pos h hs

lemma Normal_mag_one (f : Facet) (h : f.crossSq ≠ 0) : f.Normal.mag = 1 := by
  have hq : 0 < f.crossSq := lt_of_le_of_ne (crossSq_nonneg f) (Ne.symm h)
  have e1 : f.Normal.x = f.cross.x / Real.sqrt f.crossSq := rfl
  have e2 : f.Normal.y = f.cross.y / Real.sqrt f.crossSq := rfl
  have e3 : f.Normal.z = f.cross.z / Real.sqrt f.crossSq := rfl
  have hsum : f.Normal.x * f.Normal.x + f.Normal.y * f.Normal.y +
      f.Normal.z * f.Normal.z = 1 := by
    rw [e1, e2, e3, div_mul_div_comm, div_mul_div_comm, div_mul_div_comm,
      div_add_div_same, div_add_div_same, Real.mul_self_sqrt hq.le]
    exact div_self h
  unfold Point.mag
  rw [hsum]
  exact Real.sqrt_one

/-- When the first facet's cross product points weakly down (and its x, y
components vanish, as for any horizontal facet), the bottom orientation
check of `NewBox` cannot fire: either the facet is degenerate (NaN
normal, comparison false) or the normal's z is strictly negative. -/
lemma bottom_guard_false (f : Facet) (hx : f.cross.x = 0) (hy : f.cross.y = 0)
    (hz : f.cross.z ≤ 0) : ¬(f.crossSq ≠ 0 ∧ 0 ≤ f.Normal.z) := by
  rintro ⟨hne, hge⟩
  have hz0 : f.cross.z ≠ 0 := by
    intro h0
    exact hne (by unfold Facet.crossSq; rw [hx, hy, h0]; ring)
  have hlt : f.Normal.z < 0 := Normal_z_neg f (lt_of_le_of_ne hz hz0)
  linarith

/-- Mirror image of `bottom_guard_false` for the top orientation check. -/
lemma top_guard_false (f : Facet) (hx : f.cross.x = 0) (hy : f.cross.y = 0)
    (hz : 0 ≤ f.cross.z) : ¬(f.crossSq ≠ 0 ∧ f.Normal.z ≤ 0) := by
  rintro ⟨hne, hle⟩
  have hz0 : f.cross.z ≠ 0 := by
    intro h0
    exact hne (by unfold Facet.crossSq; rw [hx, hy, h0]; ring)
  have hlt : 0 < f.Normal.z := Normal_z_pos f (lt_of_le_of_ne hz (Ne.symm hz0))
  linarith

/-- Cross product of a horizontal facet (all three z coordinates equal):
only the z component survives, and it is `crossZ` of the planar parts. -/
lemma cross_cap (a b c : V2) (z : ℝ) :
    (Facet.mk ⟨a.1, a.2, z⟩ ⟨b.1, b.2, z⟩ ⟨c.1, c.2, z⟩).cross =
      ⟨0, 0, crossZ a b c⟩ := by
  simp only [Facet.cross, Point.sub, crossZ, cross2D, sub2, Point.mk.injEq]
  refine ⟨by ring_nf, by ring_nf, by ring_nf⟩

lemma crossSq_cap (a b c : V2) (z : ℝ) :
    (Facet.mk ⟨a.1, a.2, z⟩ ⟨b.1, b.2, z⟩ ⟨c.1, c.2, z⟩).crossSq =
      crossZ a b c * crossZ a b c := by
  simp only [Facet.crossSq, cross_cap]
  ring

/-- Squared cross product of the first facet of a side quad: the square
of the height times the squared planar edge length. -/
lemma crossSq_side1 (a b : V2) (hgt : ℝ) :
    (Facet.mk ⟨a.1, a.2, hgt⟩ ⟨b.1, b.2, hgt⟩ ⟨b.1, b.2, 0⟩).crossSq =
      hgt * hgt * edgeSq a b := by
  simp only [Facet.crossSq, Facet.cross, Point.sub, edgeSq, normSq2, sub2]
  ring

/-- Squared cross product of the second facet of a side quad. -/
lemma crossSq_side2 (a b : V2) (hgt : ℝ) :
    (Facet.mk ⟨b.1, b.2, 0⟩ ⟨a.1, a.2, 0⟩ ⟨a.1, a.2, hgt⟩).crossSq =
      hgt * hgt * edgeSq a b := by
  simp only [Facet.crossSq, Facet.cross, Point.sub, edgeSq, normSq2, sub2]
  ring

/-! ### The pipeline is an affine map of the footprint -/

/-- The core pipeline (deflate, scale, rotate, translate) acts on every
footprint vertex as one affine map: a scale by `insetScale inset`, the
rotation by the angle in radians, and some translation `T`. -/
lemma kiteCore_repr (loc : V2) (rot : ℤ) (inset : ℝ) :
    ∃ T : V2, kiteCore loc rot inset =
      map4 (affineF (insetScale inset) ((rot : ℝ) / rad) T) footprint := by
  by_cases hi : inset > 0
  · refine ⟨(loc.1 * unit + unit *
        (inset * sin30 * Real.cos ((rot : ℝ) / rad) -
          inset * cos30 * Real.sin ((rot : ℝ) / rad)),
      loc.2 * unit + unit *
        (inset * sin30 * Real.sin ((rot : ℝ) / rad) +
          inset * cos30 * Real.cos ((rot : ℝ) / rad))), ?_⟩
    simp only [kiteCore, insetScale]
    rw [if_pos hi, if_pos hi]
    simp only [map4, footprint, affineF, translateBy, rotateBy, scaleBy, Prod.mk.injEq]
    repeat' apply And.intro
    all_goals ring
  · refine ⟨(loc.1 * unit, loc.2 * unit), ?_⟩
    simp only [kiteCore, insetScale]
    rw [if_neg hi, if_neg hi]
    simp only [map4, footprint, affineF, translateBy, rotateBy, scaleBy]

lemma kiteVerts_false (loc : V2) (rot : ℤ) (inset : ℝ) :
    kiteVerts loc rot inset false = kiteCore loc rot inset := rfl

lemma kiteVerts_true (loc : V2) (rot : ℤ) (inset : ℝ) :
    kiteVerts loc rot inset true = reflectKite (kiteCore loc rot inset) := rfl

/-- The bottom orientation check never fires on a quad built by
`kiteBot`, provided the transformed footprint's leading signed area is
weakly negative. -/
lemma kite_guard_bot (w : V4) (hz : crossZ w.1 w.2.1 w.2.2.1 ≤ 0) :
    ¬((kiteBot w).Facets.1.crossSq ≠ 0 ∧ 0 ≤ (kiteBot w).Facets.1.Normal.z) := by
  have hfacet : (kiteBot w).Facets.1 =
      Facet.mk ⟨w.1.1, w.1.2, 0⟩ ⟨w.2.1.1, w.2.1.2, 0⟩ ⟨w.2.2.1.1, w.2.2.1.2, 0⟩ := rfl
  rw [hfacet]
  apply bottom_guard_false
  · rw [cross_cap]
  · rw [cross_cap]
  · rw [cross_cap]
    exact hz

/-- The top orientation check never fires on a quad built by `kiteTop`,
provided the corresponding signed area is weakly positive. -/
lemma kite_guard_top (w : V4) (hgt : ℝ) (hz : 0 ≤ crossZ w.1 w.2.2.2 w.2.2.1) :
    ¬((kiteTop w hgt).Facets.1.crossSq ≠ 0 ∧ (kiteTop w hgt).Facets.1.Normal.z ≤ 0) := by
  have hfacet : (kiteTop w hgt).Facets.1 =
      Facet.mk ⟨w.1.1, w.1.2, hgt⟩ ⟨w.2.2.2.1, w.2.2.2.2, hgt⟩
        ⟨w.2.2.1.1, w.2.2.1.2, hgt⟩ := rfl
  rw [hfacet]
  apply top_guard_false
  · rw [cross_cap]
  · rw [cross_cap]
  · rw [cross_cap]
    exact hz

/-- `Kite` succeeds whenever the two leading signed areas have the
expected weak signs. -/
lemma Kite_ok_of (loc : V2) (rot : ℤ) (inset : ℝ) (reflect : Bool)
    (hzb : crossZ (kiteVerts loc rot inset reflect).1
      (kiteVerts loc rot inset reflect).2.1
      (kiteVerts loc rot inset reflect).2.2.1 ≤ 0)
    (hzt : 0 ≤ crossZ (kiteVerts loc rot inset reflect).1
      (kiteVerts loc rot inset reflect).2.2.2
      (kiteVerts loc rot inset reflect).2.2.1) :
    Kite loc rot inset reflect =
      Except.ok ⟨kiteBot (kiteVerts loc rot inset reflect),
        kiteTop (kiteVerts loc rot inset reflect) ((0.2 + inset) * unit)⟩ := by
  simp only [Kite, NewBox]
  rw [if_neg (kite_guard_bot _ hzb), if_neg (kite_guard_top _ _ hzt)]

/-- `Kite` never takes the fatal path: for every position, rotation,
inset and reflect flag it returns the box of its two quads.  With a
nondegenerate scale the leading signed areas have strictly the right
signs; with a degenerate one (`inset = 1`) the normals are NaN and the
checks compare false. -/
lemma Kite_ok (loc : V2) (rot : ℤ) (inset : ℝ) (reflect : Bool) :
    Kite loc rot inset reflect =
      Except.ok ⟨kiteBot (kiteVerts loc rot inset reflect),
        kiteTop (kiteVerts loc rot inset reflect) ((0.2 + inset) * unit)⟩ := by
  obtain ⟨T, hT⟩ := kiteCore_repr loc rot inset
  have ht3 := sqrt3_pos
  have hs2 : 0 ≤ insetScale inset ^ 2 := sq_nonneg _
  cases reflect
  case false =>
    have hw : kiteVerts loc rot inset false =
        map4 (affineF (insetScale inset) ((rot : ℝ) / rad) T)
          ((0, 0), (0, sqrt3), (1, sqrt3), (3 / 2, sqrt3 / 2)) := by
      rw [kiteVerts_false, hT, footprint_eq]
    apply Kite_ok_of
    · rw [hw]
      simp only [map4]
      rw [crossZ_affine, crossZ_f0]
      nlinarith
    · rw [hw]
      simp only [map4]
      rw [crossZ_affine, crossZ_f2]
      nlinarith
  case true =>
    have hw : kiteVerts loc rot inset true =
        reflectKite (map4 (affineF (insetScale inset) ((rot : ℝ) / rad) T)
          ((0, 0), (0, sqrt3), (1, sqrt3), (3 / 2, sqrt3 / 2))) := by
      rw [kiteVerts_true, hT, footprint_eq]
    apply Kite_ok_of
    · rw [hw]
      simp only [map4, reflectKite]
      rw [crossZ_negx, crossZ_affine, crossZ_r0]
      nlinarith
    · rw [hw]
      simp only [map4, reflectKite]
      rw [crossZ_negx, crossZ_affine, crossZ_r2]
      nlinarith

/-- The pipeline at rotation 0, inset 0, translation (0,0), no reflect:
the canonical footprint scaled by the unit size, exactly. -/
lemma kiteVerts_id :
    kiteVerts (0, 0) 0 0 false =
      ((0, 0), (0, sqrt3 * 12), (12, sqrt3 * 12),
        (sqrt3 * cos30 * 12, sqrt3 * sin30 * 12)) := by
  have hθ : ((0 : ℤ) : ℝ) / rad = 0 := by norm_num
  rw [kiteVerts_false]
  simp only [kiteCore, map4, footprint, translateBy, rotateBy, scaleBy, unit, hθ,
    Real.cos_zero, Real.sin_zero, gt_iff_lt, lt_self_iff_false, if_false]
  norm_num

/-- For every non-reflected `Kite` box with a nonzero scale and positive
height: no facet's cross product vanishes, and the four cap facets'
cross products have the expected z signs (bottom negative, top
positive). -/
lemma kite_noreflect_props (loc : V2) (rot : ℤ) (inset : ℝ)
    (hs : insetScale inset ≠ 0) (hh : 0 < 0.2 + inset) :
    (∀ f ∈ (Box.mk (kiteBot (kiteVerts loc rot inset false))
        (kiteTop (kiteVerts loc rot inset false) ((0.2 + inset) * unit))).Facets,
      f.crossSq ≠ 0) ∧
    (kiteBot (kiteVerts loc rot inset false)).Facets.1.cross.z < 0 ∧
    (kiteBot (kiteVerts loc rot inset false)).Facets.2.cross.z < 0 ∧
    0 < (kiteTop (kiteVerts loc rot inset false) ((0.2 + inset) * unit)).Facets.1.cross.z ∧
    0 < (kiteTop (kiteVerts loc rot inset false) ((0.2 + inset) * unit)).Facets.2.cross.z := by
  obtain ⟨T, hT⟩ := kiteCore_repr loc rot inset
  have hw : kiteVerts loc rot inset false =
      map4 (affineF (insetScale inset) ((rot : ℝ) / rad) T)
        ((0, 0), (0, sqrt3), (1, sqrt3), (3 / 2, sqrt3 / 2)) := by
    rw [kiteVerts_false, hT, footprint_eq]
  have ht3 := sqrt3_pos
  have hs2 : 0 < insetScale inset ^ 2 :=
    lt_of_le_of_ne (sq_nonneg _) (Ne.symm (pow_ne_zero 2 hs))
  have hgt : 0 < (0.2 + inset) * unit := mul_pos hh (by norm_num [unit])
  have hcapneg : insetScale inset ^ 2 * -sqrt3 < 0 :=
    mul_neg_of_pos_of_neg hs2 (by linarith)
  have hcappos : 0 < insetScale inset ^ 2 * sqrt3 := mul_pos hs2 ht3
  have hedge3 : (0 : ℝ) < insetScale inset ^ 2 * 3 := by nlinarith
  have hedge1 : (0 : ℝ) < insetScale inset ^ 2 * 1 := by nlinarith
  rw [hw]
  simp only [map4]
  refine ⟨?_, ?_, ?_, ?_, ?_⟩
  · intro f hf
    simp only [Box.Facets, Quad.Facets, kiteBot, kiteTop, NewQuad, List.mem_cons,
      List.not_mem_nil, or_false] at hf
    rcases hf with rfl | rfl | rfl | rfl | rfl | rfl | rfl | rfl | rfl | rfl | rfl | rfl
    · rw [crossSq_cap, crossZ_affine, crossZ_f0]
      exact mul_ne_zero hcapneg.ne hcapneg.ne
    · rw [crossSq_cap, crossZ_affine, crossZ_f1]
      exact mul_ne_zero hcapneg.ne hcapneg.ne
    · rw [crossSq_cap, crossZ_affine, crossZ_f2]
      exact mul_ne_zero hcappos.ne' hcappos.ne'
    · rw [crossSq_cap, crossZ_affine, crossZ_f3]
      exact mul_ne_zero hcappos.ne' hcappos.ne'
    · rw [crossSq_side1, edgeSq_affine, edgeSq01]
      exact (mul_pos (mul_pos hgt hgt) hedge3).ne'
    · rw [crossSq_side2, edgeSq_affine, edgeSq01]
      exact (mul_pos (mul_pos hgt hgt) hedge3).ne'
    · rw [crossSq_side1, edgeSq_affine, edgeSq12]
      exact (mul_pos (mul_pos hgt hgt) hedge1).ne'
    · rw [crossSq_side2, edgeSq_affine, edgeSq12]
      exact (mul_pos (mul_pos hgt hgt) hedge1).ne'
    · rw [crossSq_side1, edgeSq_affine, edgeSq23]
      exact (mul_pos (mul_pos hgt hgt) hedge1).ne'
    · rw [crossSq_side2, edgeSq_affine, edgeSq23]
      exact (mul_pos (mul_pos hgt hgt) hedge1).ne'
    · rw [crossSq_side1, edgeSq_affine, edgeSq30]
      exact (mul_pos (mul_pos hgt hgt) hedge3).ne'
    · rw [crossSq_side2, edgeSq_affine, edgeSq30]
      exact (mul_pos (mul_pos hgt hgt) hedge3).ne'
  · simp only [kiteBot, NewQuad, Quad.Facets]
    rw [cross_cap]
    show crossZ _ _ _ < 0
    rw [crossZ_affine, crossZ_f0]
    exact hcapneg
  · simp only [kiteBot, NewQuad, Quad.Facets]
    rw [cross_cap]
    show crossZ _ _ _ < 0
    rw [crossZ_affine, crossZ_f1]
    exact hcapneg
  · simp only [kiteTop, NewQuad, Quad.Facets]
    rw [cross_cap]
    show 0 < crossZ _ _ _
    rw [crossZ_affine, crossZ_f2]
    exact hcappos
  · simp only [kiteTop, NewQuad, Quad.Facets]
    rw [cross_cap]
    show 0 < crossZ _ _ _
    rw [crossZ_affine, crossZ_f3]
    exact hcappos

/-- Positive scalar multiples of the cross product normalize to the same
unit vector. -/
lemma Normal_smul (c : ℝ) (hc : 0 < c) (n : Point) (f : Facet)
    (h : f.cross = smulP c n) :
    f.Normal = ⟨n.x / Real.sqrt (n.x * n.x + n.y * n.y + n.z * n.z),
      n.y / Real.sqrt (n.x * n.x + n.y * n.y + n.z * n.z),
      n.z / Real.sqrt (n.x * n.x + n.y * n.y + n.z * n.z)⟩ := by
  have hq : f.crossSq = c ^ 2 * (n.x * n.x + n.y * n.y + n.z * n.z) := by
    unfold Facet.crossSq
    rw [h]
    simp only [smulP]
    ring
  have hnorm : Real.sqrt f.crossSq =
      c * Real.sqrt (n.x * n.x + n.y * n.y + n.z * n.z) := by
    rw [hq, Real.sqrt_mul (sq_nonneg c), Real.sqrt_sq hc.le]
  have e1 : f.Normal.x = f.cross.x / Real.sqrt f.crossSq := rfl
  have e2 : f.Normal.y = f.cross.y / Real.sqrt f.crossSq := rfl
  have e3 : f.Normal.z = f.cross.z / Real.sqrt f.crossSq := rfl
  refine Point.ext ?_ ?_ ?_
  · rw [e1, h, hnorm]
    simp only [smulP]
    rw [mul_div_mul_left _ _ hc.ne']
  · rw [e2, h, hnorm]
    simp only [smulP]
    rw [mul_div_mul_left _ _ hc.ne']
  · rw [e3, h, hnorm]
    simp only [smulP]
    rw [mul_div_mul_left _ _ hc.ne']

/-! ### The claims -/

/-- C1: for the box built by `Kite` for kite index 0 (position (0,0),
rotation −60 degrees, inset 0, reflect false), `Facets` returns exactly
12 facets; every facet's normal has magnitude 1 to within 1e-9; the two
bottom-cap facets' normals have negative z and the two top-cap facets'
normals have positive z, so all cap normals point outward. -/
theorem claim_C1 :
    ∃ b : Box, Kite (0, 0) (-60) 0 false = Except.ok b ∧
      b.Facets.length = 12 ∧
      b.Facets.take 4 = [b.q0.Facets.1, b.q0.Facets.2, b.q1.Facets.1, b.q1.Facets.2] ∧
      (∀ f ∈ b.Facets, |f.Normal.mag - 1| ≤ 1e-9) ∧
      b.q0.Facets.1.Normal.z < 0 ∧ b.q0.Facets.2.Normal.z < 0 ∧
      0 < b.q1.Facets.1.Normal.z ∧ 0 < b.q1.Facets.2.Normal.z := by
  obtain ⟨hne, hb1, hb2, ht1, ht2⟩ :=
    kite_noreflect_props (0, 0) (-60) 0 (by simp [insetScale, unit]) (by norm_num)
  refine ⟨⟨kiteBot (kiteVerts (0, 0) (-60) 0 false),
      kiteTop (kiteVerts (0, 0) (-60) 0 false) ((0.2 + 0) * unit)⟩,
    Kite_ok _ _ _ _, rfl, rfl, ?_, Normal_z_neg _ hb1, Normal_z_neg _ hb2,
    Normal_z_pos _ ht1, Normal_z_pos _ ht2⟩
  intro f hf
  rw [Normal_mag_one f (hne f hf), sub_self, abs_zero]
  norm_num

/-- C3: with both first facets nondegenerate (so the float normals are
actual numbers, not NaN), `NewBox` fails exactly when the bottom quad's
first-facet normal z is not negative or the top quad's is not positive,
and on success it returns the box of the two given quads unchanged. -/
theorem claim_C3 (q0 q1 : Quad)
    (h0 : (q0.Facets).1.crossSq ≠ 0) (h1 : (q1.Facets).1.crossSq ≠ 0) :
    ((∃ e, NewBox q0 q1 = Except.error e) ↔
      0 ≤ (q0.Facets).1.Normal.z ∨ (q1.Facets).1.Normal.z ≤ 0) ∧
    ∀ b, NewBox q0 q1 = Except.ok b → b = ⟨q0, q1⟩ := by
  by_cases hz0 : 0 ≤ (q0.Facets).1.Normal.z
  · have he : NewBox q0 q1 = Except.error "bad bottom normal" := by
      simp only [NewBox]
      rw [if_pos ⟨h0, hz0⟩]
    refine ⟨⟨fun _ => Or.inl hz0, fun _ => ⟨_, he⟩⟩, fun b hb => ?_⟩
    rw [he] at hb
    exact absurd hb (by simp)
  · by_cases hz1 : (q1.Facets).1.Normal.z ≤ 0
    · have he : NewBox q0 q1 = Except.error "bad top normal" := by
        simp only [NewBox]
        rw [if_neg (fun hc => hz0 hc.2), if_pos ⟨h1, hz1⟩]
      refine ⟨⟨fun _ => Or.inr hz1, fun _ => ⟨_, he⟩⟩, fun b hb => ?_⟩
      rw [he] at hb
      exact absurd hb (by simp)
    · have he : NewBox q0 q1 = Except.ok ⟨q0, q1⟩ := by
        simp only [NewBox]
        rw [if_neg (fun hc => hz0 hc.2), if_neg (fun hc => hz1 hc.2)]
      constructor
      · constructor
        · rintro ⟨e, hee⟩
          rw [he] at hee
          exact absurd hee (by simp)
        · rintro (h | h)
          · exact absurd h hz0
          · exact absurd h hz1
      · intro b hb
        rw [he] at hb
        injection hb with h
        exact h.symm

/-- Witness for C3: a concrete well-oriented pair of quads on which the
hypotheses hold and `NewBox` succeeds, returning them unchanged. -/
theorem claim_C3_witness :
    (exBot.Facets).1.crossSq ≠ 0 ∧ (exTop.Facets).1.crossSq ≠ 0 ∧
    (((∃ e, NewBox exBot exTop = Except.error e) ↔
      0 ≤ (exBot.Facets).1.Normal.z ∨ (exTop.Facets).1.Normal.z ≤ 0) ∧
      ∀ b, NewBox exBot exTop = Except.ok b → b = ⟨exBot, exTop⟩) := by
  have h0 : (exBot.Facets).1.crossSq ≠ 0 := by
    simp only [exBot, NewQuad, Quad.Facets, Facet.crossSq, Facet.cross, Point.sub]
    norm_num
  have h1 : (exTop.Facets).1.crossSq ≠ 0 := by
    simp only [exTop, NewQuad, Quad.Facets, Facet.crossSq, Facet.cross, Point.sub]
    norm_num
  exact ⟨h0, h1, claim_C3 exBot exTop h0 h1⟩

/-- C4: for a valid quad — its four corner cross products are positive
multiples of one common nonzero vector, which packages coplanarity,
convexity and consistent winding — the two facets of `Facets` have
equal unit normals (parallel and pointing the same way, exactly). -/
theorem claim_C4 (q : Quad) (n : Point) (c0 c1 c2 c3 : ℝ)
    (hn : n ≠ ⟨0, 0, 0⟩)
    (hc0 : 0 < c0) (hc1 : 0 < c1) (hc2 : 0 < c2) (hc3 : 0 < c3)
    (h0 : vcross (q.p1.sub q.p0) (q.p2.sub q.p1) = smulP c0 n)
    (h1 : vcross (q.p2.sub q.p1) (q.p3.sub q.p2) = smulP c1 n)
    (h2 : vcross (q.p3.sub q.p2) (q.p0.sub q.p3) = smulP c2 n)
    (h3 : vcross (q.p0.sub q.p3) (q.p1.sub q.p0) = smulP c3 n) :
    (q.Facets).1.Normal = (q.Facets).2.Normal := by
  have e1 : (q.Facets).1.cross = smulP c0 n := by
    rw [← h0]
    simp only [Quad.Facets, Facet.cross, vcross, Point.sub, Point.mk.injEq]
    refine ⟨by ring, by ring, by ring⟩
  have e2 : (q.Facets).2.cross = smulP c2 n := by
    rw [← h2]
    simp only [Quad.Facets, Facet.cross, vcross, Point.sub, Point.mk.injEq]
    refine ⟨by ring, by ring, by ring⟩
  rw [Normal_smul c0 hc0 n _ e1, Normal_smul c2 hc2 n _ e2]

/-- Witness for C4: the unit square quad `exBot`, whose corner cross
products are all `(0, 0, −1)`. -/
theorem claim_C4_witness :
    vcross (exBot.p1.sub exBot.p0) (exBot.p2.sub exBot.p1) =
      smulP 1 ⟨0, 0, -1⟩ ∧
    (exBot.Facets).1.Normal = (exBot.Facets).2.Normal := by
  have hn : (⟨0, 0, -1⟩ : Point) ≠ ⟨0, 0, 0⟩ := by
    intro h
    have hz := congrArg Point.z h
    norm_num at hz
  have h0 : vcross (exBot.p1.sub exBot.p0) (exBot.p2.sub exBot.p1) =
      smulP 1 ⟨0, 0, -1⟩ := by
    simp only [exBot, NewQuad, Point.sub, vcross, smulP, Point.mk.injEq]
    norm_num
  have h1 : vcross (exBot.p2.sub exBot.p1) (exBot.p3.sub exBot.p2) =
      smulP 1 ⟨0, 0, -1⟩ := by
    simp only [exBot, NewQuad, Point.sub, vcross, smulP, Point.mk.injEq]
    norm_num
  have h2 : vcross (exBot.p3.sub exBot.p2) (exBot.p0.sub exBot.p3) =
      smulP 1 ⟨0, 0, -1⟩ := by
    simp only [exBot, NewQuad, Point.sub, vcross, smulP, Point.mk.injEq]
    norm_num
  have h3 : vcross (exBot.p0.sub exBot.p3) (exBot.p1.sub exBot.p0) =
      smulP 1 ⟨0, 0, -1⟩ := by
    simp only [exBot, NewQuad, Point.sub, vcross, smulP, Point.mk.injEq]
    norm_num
  exact ⟨h0, claim_C4 exBot ⟨0, 0, -1⟩ 1 1 1 1 hn one_pos one_pos one_pos one_pos
    h0 h1 h2 h3⟩

/-- C5: `Kite` with rotation 0, inset 0, position (0,0), reflect false
produces a bottom quad whose vertices are exactly the canonical kite
footprint scaled by the unit size 12, each at z = 0. -/
theorem claim_C5 :
    ∃ t : Quad, Kite (0, 0) 0 0 false =
      Except.ok ⟨NewQuad
        0 0 0
        0 (sqrt3 * 12) 0
        12 (sqrt3 * 12) 0
        (sqrt3 * cos30 * 12) (sqrt3 * sin30 * 12) 0, t⟩ := by
  refine ⟨kiteTop (kiteVerts (0, 0) 0 0 false) ((0.2 + 0) * unit), ?_⟩
  rw [Kite_ok, kiteVerts_id]
  rfl

/-- C6: the reflect transformation (negate each x and reverse the vertex
order) is an involution: applied twice it returns the original vertex
sequence and winding. -/
theorem claim_C6 (v : V4) : reflectKite (reflectKite v) = v := by
  simp [reflectKite, negx]

/-- C8: `Quad.Facets` always returns exactly the triangles
`(q[0], q[1], q[2])` and `(q[2], q[3], q[0])` — the fixed diagonal from
vertex 2 to vertex 0, independent of the vertex values. -/
theorem claim_C8 (q : Quad) :
    q.Facets = (⟨q.p0, q.p1, q.p2⟩, ⟨q.p2, q.p3, q.p0⟩) := rfl

/-- C10: when both first facets are degenerate (zero cross product, so
the computed float normals are NaN and both sign comparisons are false),
`NewBox` does not reject: it returns the box normally. -/
theorem claim_C10 (q0 q1 : Quad) (h0 : (q0.Facets).1.crossSq = 0)
    (h1 : (q1.Facets).1.crossSq = 0) :
    NewBox q0 q1 = Except.ok ⟨q0, q1⟩ := by
  have hb : ¬((q0.Facets).1.crossSq ≠ 0 ∧ 0 ≤ (q0.Facets).1.Normal.z) :=
    fun hc => hc.1 h0
  have ht : ¬((q1.Facets).1.crossSq ≠ 0 ∧ (q1.Facets).1.Normal.z ≤ 0) :=
    fun hc => hc.1 h1
  simp only [NewBox]
  rw [if_neg hb, if_neg ht]

/-- Witness for C10: the all-zero quad is degenerate yet `NewBox`
accepts it. -/
theorem claim_C10_witness :
    (degenQ.Facets).1.crossSq = 0 ∧
    NewBox degenQ degenQ = Except.ok ⟨degenQ, degenQ⟩ := by
  have h : (degenQ.Facets).1.crossSq = 0 := by
    simp only [degenQ, NewQuad, Quad.Facets, Facet.crossSq, Facet.cross, Point.sub]
    norm_num
  exact ⟨h, claim_C10 degenQ degenQ h h⟩

/-- C2 (amended): `Box.Facets` returns exactly 12 triangles — the bottom
quad's two facets, the top quad's two facets, then for each `i` in 0..3
the two facets of the side quad
`(top[(4−i) mod 4], top[(3−i) mod 4], bottom[(i+1) mod 4], bottom[i])`,
each split by the same fixed diagonal rule as `Quad.Facets`. -/
theorem claim_C2 (b : Box) :
    b.Facets = [b.q0.Facets.1, b.q0.Facets.2, b.q1.Facets.1, b.q1.Facets.2,
      (sideQuadFix b 0).Facets.1, (sideQuadFix b 0).Facets.2,
      (sideQuadFix b 1).Facets.1, (sideQuadFix b 1).Facets.2,
      (sideQuadFix b 2).Facets.1, (sideQuadFix b 2).Facets.2,
      (sideQuadFix b 3).Facets.1, (sideQuadFix b 3).Facets.2] := rfl

/-- Counterexample to C2 as stated: on a concrete box the facet list is
not even a permutation of the caps plus the facets of the claimed side
quads `(bottom[i], bottom[i+1], top[i+1], top[i])` — the actual facet
`f[4]` is none of those 12 triangles. -/
theorem claim_C2_counterexample :
    ¬ (Box.Facets ⟨exBot, exTop⟩).Perm (specC2Facets ⟨exBot, exTop⟩) := by
  intro h
  have hfacets : Box.Facets ⟨exBot, exTop⟩ =
      [Facet.mk ⟨0, 0, 0⟩ ⟨0, 1, 0⟩ ⟨1, 1, 0⟩,
       Facet.mk ⟨1, 1, 0⟩ ⟨1, 0, 0⟩ ⟨0, 0, 0⟩,
       Facet.mk ⟨0, 0, 1⟩ ⟨1, 0, 1⟩ ⟨1, 1, 1⟩,
       Facet.mk ⟨1, 1, 1⟩ ⟨0, 1, 1⟩ ⟨0, 0, 1⟩,
       Facet.mk ⟨0, 0, 1⟩ ⟨0, 1, 1⟩ ⟨0, 1, 0⟩,
       Facet.mk ⟨0, 1, 0⟩ ⟨0, 0, 0⟩ ⟨0, 0, 1⟩,
       Facet.mk ⟨0, 1, 1⟩ ⟨1, 1, 1⟩ ⟨1, 1, 0⟩,
       Facet.mk ⟨1, 1, 0⟩ ⟨0, 1, 0⟩ ⟨0, 1, 1⟩,
       Facet.mk ⟨1, 1, 1⟩ ⟨1, 0, 1⟩ ⟨1, 0, 0⟩,
       Facet.mk ⟨1, 0, 0⟩ ⟨1, 1, 0⟩ ⟨1, 1, 1⟩,
       Facet.mk ⟨1, 0, 1⟩ ⟨0, 0, 1⟩ ⟨0, 0, 0⟩,
       Facet.mk ⟨0, 0, 0⟩ ⟨1, 0, 0⟩ ⟨1, 0, 1⟩] := rfl
  have hspec : specC2Facets ⟨exBot, exTop⟩ =
      [Facet.mk ⟨0, 0, 1⟩ ⟨1, 0, 1⟩ ⟨1, 1, 1⟩,
       Facet.mk ⟨1, 1, 1⟩ ⟨0, 1, 1⟩ ⟨0, 0, 1⟩,
       Facet.mk ⟨0, 0, 0⟩ ⟨0, 1, 0⟩ ⟨1, 1, 0⟩,
       Facet.mk ⟨1, 1, 0⟩ ⟨1, 0, 0⟩ ⟨0, 0, 0⟩,
       Facet.mk ⟨0, 0, 0⟩ ⟨0, 1, 0⟩ ⟨1, 0, 1⟩,
       Facet.mk ⟨1, 0, 1⟩ ⟨0, 0, 1⟩ ⟨0, 0, 0⟩,
       Facet.mk ⟨0, 1, 0⟩ ⟨1, 1, 0⟩ ⟨1, 1, 1⟩,
       Facet.mk ⟨1, 1, 1⟩ ⟨1, 0, 1⟩ ⟨0, 1, 0⟩,
       Facet.mk ⟨1, 1, 0⟩ ⟨1, 0, 0⟩ ⟨0, 1, 1⟩,
       Facet.mk ⟨0, 1, 1⟩ ⟨1, 1, 1⟩ ⟨1, 1, 0⟩,
       Facet.mk ⟨1, 0, 0⟩ ⟨0, 0, 0⟩ ⟨0, 0, 1⟩,
       Facet.mk ⟨0, 0, 1⟩ ⟨0, 1, 1⟩ ⟨1, 0, 0⟩] := rfl
  have hm : (Facet.mk ⟨0, 0, 1⟩ ⟨0, 1, 1⟩ ⟨0, 1, 0⟩) ∈ Box.Facets ⟨exBot, exTop⟩ := by
    rw [hfacets]
    simp
  have hm2 := h.mem_iff.mp hm
  rw [hspec] at hm2
  simp only [List.mem_cons, List.not_mem_nil, or_false, Facet.mk.injEq,
    Point.mk.injEq] at hm2
  norm_num at hm2

/-- C7 (amended): for every input, `Kite` builds its box from a bottom
quad listing the transformed vertices in forward order at z = 0, and a
top quad at height `(0.2 + inset) * unit` listing them in reversed
cyclic order keeping the first vertex first: index `i` holds transformed
vertex `(−i) mod 4`, i.e. `(v0, v3, v2, v1)`. -/
theorem claim_C7 (loc : V2) (rot : ℤ) (inset : ℝ) (reflect : Bool) :
    Kite loc rot inset reflect =
      Except.ok ⟨kiteBot (kiteVerts loc rot inset reflect),
        kiteTop (kiteVerts loc rot inset reflect) ((0.2 + inset) * unit)⟩ ∧
    (∀ i : Fin 4, (kiteBot (kiteVerts loc rot inset reflect)).get i =
      ⟨(vert (kiteVerts loc rot inset reflect) i).1,
        (vert (kiteVerts loc rot inset reflect) i).2, 0⟩) ∧
    (∀ i : Fin 4, (kiteTop (kiteVerts loc rot inset reflect)
        ((0.2 + inset) * unit)).get i =
      ⟨(vert (kiteVerts loc rot inset reflect) (-i)).1,
        (vert (kiteVerts loc rot inset reflect) (-i)).2, (0.2 + inset) * unit⟩) := by
  refine ⟨Kite_ok loc rot inset reflect, fun i => ?_, fun i => ?_⟩ <;>
    fin_cases i <;> rfl

/-- Counterexample to C7 as stated: at rotation 0, inset 0, position
(0,0), no reflect, the top quad `Kite` builds is not the transformed
vertex list in reverse order `(v3, v2, v1, v0)` — its first vertex is
`v0`, not `v3`. -/
theorem claim_C7_counterexample :
    Kite (0, 0) 0 0 false =
      Except.ok ⟨kiteBot (kiteVerts (0, 0) 0 0 false),
        kiteTop (kiteVerts (0, 0) 0 0 false) ((0.2 + 0) * unit)⟩ ∧
    kiteTop (kiteVerts (0, 0) 0 0 false) ((0.2 + 0) * unit) ≠
      specTopQuad (kiteVerts (0, 0) 0 0 false) ((0.2 + 0) * unit) := by
  refine ⟨Kite_ok _ _ _ _, ?_⟩
  rw [kiteVerts_id]
  intro hEq
  have hx : sqrt3 * cos30 * 12 = 18 := by
    rw [cos30_eq]
    linear_combination 6 * sqrt3_sq
  have h0 := congrArg (fun q : Quad => q.p0.x) hEq
  simp only [kiteTop, specTopQuad, NewQuad] at h0
  rw [hx] at h0
  norm_num at h0

/-- C9: a full run emits exactly 16 solid blocks — for each of the 8
tile placements, in order, one base solid (inset 0) then one
inset-groove solid (inset 0.03) — each block the header naming the solid
followed by its box's 12 facet records, every coordinate rendered by the
one fixed `%.6e` formatter (abstracted as `fmt6e`). -/
theorem claim_C9 (fmt6e : ℝ → String) (r : Bool) :
    (mainOutput fmt6e r).length = 16 ∧
    mainOutput fmt6e r =
      (List.range 8).flatMap (fun i =>
        [Except.ok (solidStr fmt6e ("kite" ++ toString i)
           (kiteBox (kites.getD i default) 0 r)),
         Except.ok (solidStr fmt6e ("kite-inset" ++ toString i)
           (kiteBox (kites.getD i default) inset r))]) ∧
    ∀ b : Box, b.Facets.length = 12 := by
  have hmain : mainOutput fmt6e r =
      (List.range 8).flatMap (fun i =>
        [Except.ok (solidStr fmt6e ("kite" ++ toString i)
           (kiteBox (kites.getD i default) 0 r)),
         Except.ok (solidStr fmt6e ("kite-inset" ++ toString i)
           (kiteBox (kites.getD i default) inset r))]) := by
    show (List.range 8).flatMap _ = _
    refine congrArg _ (funext fun i => ?_)
    simp only [render, Kite_ok]
    rfl
  refine ⟨?_, hmain, fun b => rfl⟩
  rw [hmain]
  rfl

end

end Einstein
